import Mathlib

/-!
Shallow embedding of `octodns/provider/googlecloud.py` (the Google Cloud DNS
provider of octoDNS): the per-type record codec (`_record_set_from_*` /
`_data_for_*`), the zone locator `_get_gcloud_zone` / `_create_gcloud_zone`,
the change applier `_apply` with its convergence poll loop, and `populate`.

Strings are modelled as `List Char`; Python's `str` operations used by the
source (slicing, `endswith`, `replace`, `re.sub` over a character class,
`.upper()`) map to list operations.  Fallible operations (exceptions such as
`IndexError`, `ValueError` from `shlex`, `RuntimeError`, `AttributeError`)
are modelled with `Option`/`Except`.
-/

deriving instance DecidableEq for Except

namespace GCloudDNS

/-- Strings as character lists (Python `str`). -/
abbrev Str := List Char

/-! ## shlex.split

The decoders call Python's `shlex.split` (POSIX mode, default settings:
whitespace splitting, `#` comments, `"`/`'` quotes, `\` escapes).  We model
it as a character-at-a-time state machine.  `none` models the `ValueError`
exceptions ("No closing quotation", "No escaped character"). -/

/-- Scanner state of the `shlex.split` state machine. -/
inductive SState : Type
  /-- outside quotes; `cur` is the token accumulated so far (`none`: no
  token in progress — distinguishes no token from an empty quoted token) -/
  | out (cur : Option (List Char))
  /-- saw a backslash outside quotes; next char is taken literally -/
  | esc (acc : List Char)
  /-- inside double quotes -/
  | dq (acc : List Char)
  /-- saw a backslash inside double quotes -/
  | dqEsc (acc : List Char)
  /-- inside single quotes -/
  | sq (acc : List Char)
  /-- inside a `#` comment (skipped until end of line) -/
  | comment
  deriving DecidableEq

/-- Python `str.isspace`-style whitespace recognised by `shlex` as a token
separator (its `whitespace` attribute is space, tab, CR, LF). -/
def isWs (c : Char) : Bool :=
  c = ' ' || c = '\t' || c = '\r' || c = '\n'

/-- One-character-at-a-time scanner for `shlex.split` (POSIX mode). -/
def shAux : List Char → SState → Option (List (List Char))
  | [], .out none => some []
  | [], .out (some t) => some [t]
  | [], .comment => some []
  | [], .esc _ => none
  | [], .dq _ => none
  | [], .dqEsc _ => none
  | [], .sq _ => none
  | c :: rest, .out cur =>
    if isWs c then
      match cur with
      | none => shAux rest (.out none)
      | some t => (shAux rest (.out none)).map (t :: ·)
    else if c = '"' then shAux rest (.dq (cur.getD []))
    else if c = '\'' then shAux rest (.sq (cur.getD []))
    else if c = '\\' then shAux rest (.esc (cur.getD []))
    else if c = '#' then
      match cur with
      | none => shAux rest .comment
      | some t => (shAux rest .comment).map (t :: ·)
    else shAux rest (.out (some (cur.getD [] ++ [c])))
  | c :: rest, .esc acc => shAux rest (.out (some (acc ++ [c])))
  | c :: rest, .dq acc =>
    if c = '"' then shAux rest (.out (some acc))
    else if c = '\\' then shAux rest (.dqEsc acc)
    else shAux rest (.dq (acc ++ [c]))
  | c :: rest, .dqEsc acc =>
    if c = '"' ∨ c = '\\' then shAux rest (.dq (acc ++ [c]))
    else shAux rest (.dq (acc ++ ['\\', c]))
  | c :: rest, .sq acc =>
    if c = '\'' then shAux rest (.out (some acc))
    else shAux rest (.sq (acc ++ [c]))
  | c :: rest, .comment =>
    if c = '\n' then shAux rest (.out none) else shAux rest .comment

/-- Model of `shlex.split(s)` (POSIX mode). -/
def shlex_split (s : Str) : Option (List Str) :=
  shAux s (.out none)

/-! ## Record model

The octoDNS record domain model is external to this file's source
(`from ..record import Record`); the provider only reads `record.data`,
`record.values` / `record.value`, `record.fqdn`, `record.ttl` and
`record._type`.  Field values are modelled as strings, matching the wire
contract (rrdata strings; `shlex.split` returns strings). -/

/-- The supported record types (`GoogleCloudProvider.SUPPORTS`). -/
inductive RType : Type
  | A | AAAA | CAA | CNAME | MX | NAPTR | NS | PTR | SPF | SRV | TXT
  deriving DecidableEq

/-- A CAA value: `record.data['value']` with keys flags/tag/value. -/
structure CaaValue : Type where
  flags : Str
  tag : Str
  value : Str
  deriving DecidableEq

/-- An MX value: keys preference/exchange. -/
structure MxValue : Type where
  preference : Str
  exchange : Str
  deriving DecidableEq

/-- A NAPTR value: keys order/preference/flags/service/regexp/replacement. -/
structure NaptrValue : Type where
  order : Str
  preference : Str
  flags : Str
  service : Str
  regexp : Str
  replacement : Str
  deriving DecidableEq

/-- An SRV value: keys priority/weight/port/target. -/
structure SrvValue : Type where
  priority : Str
  weight : Str
  port : Str
  target : Str
  deriving DecidableEq

/-- One type-specific field value appearing under `value`/`values`. -/
inductive Val : Type
  | plain (s : Str)
  | caa (v : CaaValue)
  | mx (v : MxValue)
  | naptr (v : NaptrValue)
  | srv (v : SrvValue)
  deriving DecidableEq

/-- The value-carrying part of a record's `data` dict: either a singular
`value` key or a plural `values` key (Python dict equality distinguishes
the two shapes). -/
inductive Data : Type
  | value (v : Val)
  | values (vs : List Val)
  deriving DecidableEq

/-- An octoDNS record, as the provider sees it: the type discriminant plus
the value payload of `record.data`.  TXT records occur in both `data`
shapes (`_record_set_from_TXT` branches on `'values' in record.data`), so
they get two constructors. -/
inductive Record : Type
  | A (values : List Str)
  | AAAA (values : List Str)
  | CAA (value : CaaValue)
  | CNAME (value : Str)
  | MX (values : List MxValue)
  | NAPTR (values : List NaptrValue)
  | NS (values : List Str)
  | PTR (value : Str)
  | SPF (values : List Str)
  | SRV (values : List SrvValue)
  | TXTvalue (value : Str)
  | TXTvalues (values : List Str)
  deriving DecidableEq

/-- `record._type`. -/
def rtypeOf : Record → RType
  | .A _ => .A
  | .AAAA _ => .AAAA
  | .CAA _ => .CAA
  | .CNAME _ => .CNAME
  | .MX _ => .MX
  | .NAPTR _ => .NAPTR
  | .NS _ => .NS
  | .PTR _ => .PTR
  | .SPF _ => .SPF
  | .SRV _ => .SRV
  | .TXTvalue _ => .TXT
  | .TXTvalues _ => .TXT

/-- The value payload of `record.data`. -/
def dataOf : Record → Data
  | .A vs => .values (vs.map .plain)
  | .AAAA vs => .values (vs.map .plain)
  | .CAA v => .value (.caa v)
  | .CNAME v => .value (.plain v)
  | .MX vs => .values (vs.map .mx)
  | .NAPTR vs => .values (vs.map .naptr)
  | .NS vs => .values (vs.map .plain)
  | .PTR v => .value (.plain v)
  | .SPF vs => .values (vs.map .plain)
  | .SRV vs => .values (vs.map .srv)
  | .TXTvalue v => .value (.plain v)
  | .TXTvalues vs => .values (vs.map .plain)

/-! ## Encoding: `_GoogleCloudRecordSetMaker._record_set_from_*`

Each function builds the `rrdatas` list passed to
`gcloud_zone.resource_record_set(fqdn, type, ttl, rrdatas)`; name, type and
ttl pass through unchanged, so the interesting content is the rrdatas. -/

/-- rrdatas built by `_record_set_from_{type}` for each record.
A/AAAA/NS/SPF pass `record.values` through; CNAME/PTR wrap
`record.value`; CAA formats `'{flags} {tag} {value}'` from
`record.data['value']`; MX `'{preference} {exchange}'`; NAPTR
`'{order} {preference} "{flags}" "{service}" "{regexp}" {replacement}'`;
SRV `'{priority} {weight} {port} {target}'`; TXT passes
`record.data['values']` or `[record.data['value']]` through. -/
def record_set_rrdatas : Record → List Str
  | .A vs => vs
  | .AAAA vs => vs
  | .CAA v => [v.flags ++ ' ' :: v.tag ++ ' ' :: v.value]
  | .CNAME v => [v]
  | .MX vs => vs.map (fun v => v.preference ++ ' ' :: v.exchange)
  | .NAPTR vs => vs.map (fun v =>
      v.order ++ ' ' :: v.preference ++
      ' ' :: '"' :: v.flags ++ '"' :: ' ' :: '"' :: v.service ++
      '"' :: ' ' :: '"' :: v.regexp ++ '"' :: ' ' :: v.replacement)
  | .NS vs => vs
  | .PTR v => [v]
  | .SPF vs => vs
  | .SRV vs => vs.map (fun v =>
      v.priority ++ ' ' :: v.weight ++ ' ' :: v.port ++ ' ' :: v.target)
  | .TXTvalue v => [v]
  | .TXTvalues vs => vs

/-! ## Decoding: `GoogleCloudProvider._data_for_*`

Each takes the remote record set's `rrdatas` and rebuilds the record data.
Indexing (`rrdatas[0]`, `v[2]`, …) and `shlex.split` can raise, hence
`Option`. -/

/-- `_data_for_A` (also AAAA, NS, SPF): `{'values': rrdatas}`. -/
def data_for_A (rrdatas : List Str) : Option Data :=
  some (.values (rrdatas.map .plain))

/-- `_data_for_CAA`: shlex-split each rrdata, take fields 0,1,2 as
flags/tag/value; always the plural `values` key. -/
def data_for_CAA (rrdatas : List Str) : Option Data :=
  (rrdatas.mapM (fun g =>
    (shlex_split g).bind (fun v =>
      match v with
      | a :: b :: c :: _ => some (Val.caa ⟨a, b, c⟩)
      | _ => none))).map .values

/-- `_data_for_CNAME` (also PTR): `{'value': rrdatas[0]}`. -/
def data_for_CNAME (rrdatas : List Str) : Option Data :=
  rrdatas.head?.map (fun v => .value (.plain v))

/-- `_data_for_MX`: shlex-split each rrdata, fields 0,1 as
preference/exchange. -/
def data_for_MX (rrdatas : List Str) : Option Data :=
  (rrdatas.mapM (fun g =>
    (shlex_split g).bind (fun v =>
      match v with
      | a :: b :: _ => some (Val.mx ⟨a, b⟩)
      | _ => none))).map .values

/-- `_data_for_NAPTR`: shlex-split each rrdata, fields 0..5. -/
def data_for_NAPTR (rrdatas : List Str) : Option Data :=
  (rrdatas.mapM (fun g =>
    (shlex_split g).bind (fun v =>
      match v with
      | a :: b :: c :: d :: e :: f :: _ => some (Val.naptr ⟨a, b, c, d, e, f⟩)
      | _ => none))).map .values

/-- `_data_for_SRV`: shlex-split each rrdata, fields 0..3. -/
def data_for_SRV (rrdatas : List Str) : Option Data :=
  (rrdatas.mapM (fun g =>
    (shlex_split g).bind (fun v =>
      match v with
      | a :: b :: c :: d :: _ => some (Val.srv ⟨a, b, c, d⟩)
      | _ => none))).map .values

/-- `_data_for_TXT`: more than one rrdata entry decodes as `values`,
otherwise as `{'value': rrdatas[0]}`. -/
def data_for_TXT (rrdatas : List Str) : Option Data :=
  if 1 < rrdatas.length then some (.values (rrdatas.map .plain))
  else rrdatas.head?.map (fun v => .value (.plain v))

/-- The `getattr(self, '_data_for_{}'.format(typ))` dispatch table
(`_data_for_AAAA = _data_for_A`, `_data_for_NS = _data_for_A`,
`_data_for_PTR = _data_for_CNAME`, `_data_for_SPF = _data_for_A`). -/
def data_for : RType → List Str → Option Data
  | .A => data_for_A
  | .AAAA => data_for_A
  | .CAA => data_for_CAA
  | .CNAME => data_for_CNAME
  | .MX => data_for_MX
  | .NAPTR => data_for_NAPTR
  | .NS => data_for_A
  | .PTR => data_for_CNAME
  | .SPF => data_for_A
  | .SRV => data_for_SRV
  | .TXT => data_for_TXT

/-! ## Remote objects -/

/-- String name of a record type, as used in `record._type` and
`gcloud_record.record_type`. -/
def typeName : RType → Str
  | .A => 'A' :: []
  | .AAAA => 'A' :: 'A' :: 'A' :: 'A' :: []
  | .CAA => 'C' :: 'A' :: 'A' :: []
  | .CNAME => 'C' :: 'N' :: 'A' :: 'M' :: 'E' :: []
  | .MX => 'M' :: 'X' :: []
  | .NAPTR => 'N' :: 'A' :: 'P' :: 'T' :: 'R' :: []
  | .NS => 'N' :: 'S' :: []
  | .PTR => 'P' :: 'T' :: 'R' :: []
  | .SPF => 'S' :: 'P' :: 'F' :: []
  | .SRV => 'S' :: 'R' :: 'V' :: []
  | .TXT => 'T' :: 'X' :: 'T' :: []

/-- A `google.cloud.dns.ResourceRecordSet`: absolute name, type string,
ttl and rrdata strings. -/
structure ResourceRecordSet : Type where
  name : Str
  record_type : Str
  ttl : Nat
  rrdatas : List Str
  deriving DecidableEq

/-- An octoDNS record together with the attributes the provider reads when
encoding (`record.fqdn`, `record.ttl`, and the payload). -/
structure FullRecord : Type where
  fqdn : Str
  ttl : Nat
  record : Record
  deriving DecidableEq

/-- A `google.cloud.dns.ManagedZone`: provider-local `name` and the
`dns_name` fqdn. -/
structure GZone : Type where
  name : Str
  dns_name : Str
  deriving DecidableEq

/-- `_record_to_record_set` / `_GoogleCloudRecordSetMaker.get_record_set`:
build the resource record set for a record (fqdn, type and ttl pass
through; rrdatas from the per-type maker). -/
def record_to_record_set (r : FullRecord) : ResourceRecordSet :=
  ⟨r.fqdn, typeName (rtypeOf r.record), r.ttl, record_set_rrdatas r.record⟩

/-! ## Zone locator: `_create_gcloud_zone` and `_get_gcloud_zone` -/

/-- Characters admitted by `re.sub("[^a-z0-9-]", "", ...)`. -/
def isAllowed (c : Char) : Bool :=
  ('a' ≤ c && c ≤ 'z') || ('0' ≤ c && c ≤ '9') || c = '-'

/-- The candidate zone name before the leading-letter fixup:
`re.sub("[^a-z0-9-]", "", dns_name[:-1].replace('.', "-"))`. -/
def filteredZoneName (dns_name : Str) : Str :=
  ((dns_name.dropLast).map (fun c => if c = '.' then '-' else c)).filter isAllowed

/-- The zone-name synthesis of `_create_gcloud_zone`: filter the fqdn, then
`if re.match('[^a-z]', zone_name[0])` prepend `"a"`.  Indexing `[0]` on an
empty string raises `IndexError`, modelled by `none`. -/
def createZoneName (dns_name : Str) : Option Str :=
  match filteredZoneName dns_name with
  | [] => none
  | c :: cs =>
    some (if ¬('a' ≤ c ∧ c ≤ 'z') then 'a' :: c :: cs else c :: cs)

/-- `_create_gcloud_zone`: build and create the managed zone with the
synthesized name and the given `dns_name`.  The `IndexError` of the name
synthesis propagates as an error. -/
def create_gcloud_zone (dns_name : Str) : Except Str GZone :=
  match createZoneName dns_name with
  | none => .error ('I' :: 'n' :: 'd' :: 'e' :: 'x' :: [])
  | some zn => .ok ⟨zn, dns_name⟩

/-- `_get_gcloud_zone`: scan the current page for the first zone whose
`dns_name` equals the argument; on exhaustion of the page follow the
continuation token — the source's recursive call
`self._get_gcloud_zone(dns_name, gcloud_zones.next_page_token)` does NOT
forward `create`, so the recursion runs with `create = False`; on the last
page, create the zone when `create` is set, else return `none`.  The
remote listing is modelled as the list of its pages; the continuation
token is the remaining tail, present exactly when further pages exist. -/
def get_gcloud_zone (dns_name : Str) :
    List (List GZone) → Bool → Except Str (Option GZone)
  | pages, create =>
    match (pages.headD []).find? (fun z => z.dns_name = dns_name) with
    | some z => .ok (some z)
    | none =>
      match pages, create with
      | _ :: p :: rest, _ => get_gcloud_zone dns_name (p :: rest) false
      | _, true => (create_gcloud_zone dns_name).map some
      | _, false => .ok none

/-! ## Change application: `_apply` -/

/-- One operation recorded on the `gcloud_zone.changes()` batch, in call
order (`add_record_set` / `delete_record_set`). -/
inductive Op : Type
  | add (rs : ResourceRecordSet)
  | del (rs : ResourceRecordSet)
  deriving DecidableEq

/-- A Change object as `_apply` duck-types it: only its class name and the
attributes the three branches read (`.record`, `.existing`, `.new`);
`none` models an absent attribute (`AttributeError` when accessed). -/
structure ChangeObj : Type where
  className : Str
  record : Option FullRecord := none
  existing : Option FullRecord := none
  new : Option FullRecord := none
  deriving DecidableEq

/-- Whether the first list occurs at the start of the second. -/
def leadsWith : Str → Str → Bool
  | [], _ => true
  | _ :: _, [] => false
  | a :: s, b :: t => a = b && leadsWith s t

/-- Python's `needle in hay` substring containment on strings. -/
def occursIn (needle : Str) : Str → Bool
  | [] => needle.isEmpty
  | c :: t => leadsWith needle (c :: t) || occursIn needle t

/-- The body of `_apply`'s change loop for one change.  The first branch is
the source's `if class_name in 'Create':` — Python's `in` on strings is a
SUBSTRING test, so the branch fires for every class name that occurs
inside `"Create"`; the other branches use `==`.  The final branch is the
`RuntimeError`. -/
def applyChange (ops : List Op) (c : ChangeObj) : Except Str (List Op) :=
  if occursIn c.className ('C' :: 'r' :: 'e' :: 'a' :: 't' :: 'e' :: []) then
    match c.record with
    | some r => .ok (ops ++ [.add (record_to_record_set r)])
    | none => .error ('A' :: 't' :: 't' :: 'r' :: [])
  else if c.className = 'D' :: 'e' :: 'l' :: 'e' :: 't' :: 'e' :: [] then
    match c.record with
    | some r => .ok (ops ++ [.del (record_to_record_set r)])
    | none => .error ('A' :: 't' :: 't' :: 'r' :: [])
  else if c.className = 'U' :: 'p' :: 'd' :: 'a' :: 't' :: 'e' :: [] then
    match c.existing, c.new with
    | some e, some n =>
      .ok (ops ++ [.del (record_to_record_set e), .add (record_to_record_set n)])
    | _, _ => .error ('A' :: 't' :: 't' :: 'r' :: [])
  else .error ('R' :: 'u' :: 'n' :: 't' :: 'i' :: 'm' :: 'e' :: [])

/-- The whole change loop of `_apply`: fold `applyChange` over the changes,
starting from the empty batch; the first error aborts (the exception
propagates before `gcloud_changes.create()` is ever called). -/
def buildBatch (changes : List ChangeObj) : Except Str (List Op) :=
  changes.foldlM applyChange []

/-! ## Convergence poll loop

After `gcloud_changes.create()` the source runs
`i = 1; while status != 'done': time.sleep(i); reload(); if i < 30: i += 2`.
The sleep argument before the (n+1)-st poll is `pollDelay n`. -/

/-- The value of `i` slept at the n-th loop iteration (0-based): starts at
1; after each iteration, incremented by 2 when `i < 30`, else left
unchanged. -/
def pollDelay : Nat → Nat
  | 0 => 1
  | n + 1 => if pollDelay n < 30 then pollDelay n + 2 else pollDelay n

/-- The list of sleeps performed when the first `n` polls all observe a
non-terminal status. -/
def pollSleeps (n : Nat) : List Nat :=
  (List.range n).map pollDelay

/-! ## populate -/

/-- The octoDNS zone object as `populate` uses it: its fqdn `zone.name`
and the records accumulated by `zone.add_record`.  Each added record keeps
the zone-relative name, parsed type, ttl and decoded data (the arguments
of `Record.new(zone, record_name, data)` after `data['type']` and
`data['ttl']` were set). -/
structure OctoZone : Type where
  name : Str
  records : List (Str × RType × Nat × Data)
  deriving DecidableEq

/-- Parse an (already upper-cased) record type string; `some` exactly on
members of `GoogleCloudProvider.SUPPORTS`. -/
def parseRType (s : Str) : Option RType :=
  if s = typeName .A then some .A
  else if s = typeName .AAAA then some .AAAA
  else if s = typeName .CAA then some .CAA
  else if s = typeName .CNAME then some .CNAME
  else if s = typeName .MX then some .MX
  else if s = typeName .NAPTR then some .NAPTR
  else if s = typeName .NS then some .NS
  else if s = typeName .PTR then some .PTR
  else if s = typeName .SPF then some .SPF
  else if s = typeName .SRV then some .SRV
  else if s = typeName .TXT then some .TXT
  else none

/-- Python `str.upper()` on the type string. -/
def upperStr (s : Str) : Str := s.map Char.toUpper

/-- Python `name.endswith(sfx)`: the last `len(sfx)` characters of `name`
equal `sfx`. -/
def pyEndsWith (name sfx : Str) : Bool :=
  decide (sfx.length ≤ name.length ∧ name.drop (name.length - sfx.length) = sfx)

/-- The name relativization inside `populate`: if the absolute
`record_name` ends with `zone.name`, keep
`record_name[:-(len(zone.name) + 1)]` (Python slicing clamps at the empty
string), else keep the name unchanged. -/
def relName (record_name zone_name : Str) : Str :=
  if pyEndsWith record_name zone_name then
    record_name.take (record_name.length - (zone_name.length + 1))
  else record_name

/-- Decode one remote record into the tuple added to the zone:
relative name, type, ttl and data (with decode failures propagating). -/
def populateRecord (zone_name : Str) (g : ResourceRecordSet) :
    Option (Str × RType × Nat × Data) :=
  (parseRType (upperStr g.record_type)).bind (fun t =>
    (data_for t g.rrdatas).map (fun d =>
      (relName g.name zone_name, t, g.ttl, d)))

/-- `populate`: locate the remote zone WITHOUT creating
(`self._get_gcloud_zone(zone.name)`); when absent the zone is returned
unchanged.  When present, filter the zone's record sets to supported
types, deduplicate (`_records = set()` — first occurrences kept), decode
each and append to `zone.records`.  `recsOf` models
`_get_gcloud_records` delivering the remote zone's record sets. -/
def populate (pages : List (List GZone)) (recsOf : GZone → List ResourceRecordSet)
    (zone : OctoZone) : Except Str OctoZone :=
  match get_gcloud_zone zone.name pages false with
  | .error e => .error e
  | .ok none => .ok zone
  | .ok (some gz) =>
    let supported := (recsOf gz).filter
      (fun g => (parseRType (upperStr g.record_type)).isSome)
    match supported.dedup.mapM (populateRecord zone.name) with
    | none => .error ('I' :: 'n' :: 'd' :: 'e' :: 'x' :: [])
    | some rs => .ok ⟨zone.name, zone.records ++ rs⟩

/-! ## Token shapes for the codec round-trip

The encoders emit space-joined fields, some wrapped in double quotes
(NAPTR).  The following vocabulary describes the shapes of field strings
for which `shlex.split` inverts that join. -/

/-- A character that `shlex` scans as an ordinary word character: not
whitespace, not a quote, not the escape and not the comment character. -/
def plainChar (c : Char) : Bool :=
  !isWs c && c ≠ '"' && c ≠ '\'' && c ≠ '\\' && c ≠ '#'

/-- A field string usable unquoted: non-empty and all word characters. -/
def plainTok (s : Str) : Bool :=
  !s.isEmpty && s.all plainChar

/-- A character literal inside double quotes: anything but the closing
quote and the escape. -/
def dqChar (c : Char) : Bool :=
  c ≠ '"' && c ≠ '\\'

/-- A field string usable inside double quotes (may be empty, may hold
spaces). -/
def dqTok (s : Str) : Bool :=
  s.all dqChar

/-- One encoded field: emitted bare or wrapped in double quotes. -/
inductive EncTok : Type
  | plain (s : Str)
  | quoted (s : Str)

/-- The field string carried by an encoded field. -/
def tokStr : EncTok → Str
  | .plain s => s
  | .quoted s => s

/-- Rendering of one encoded field into the rrdata string. -/
def rendTok : EncTok → Str
  | .plain s => s
  | .quoted s => '"' :: s ++ ['"']

/-- Space-join of rendered fields (the `'… {a} {b} …'.format` result). -/
def rendToks : List EncTok → Str
  | [] => []
  | [t] => rendTok t
  | t :: ts => rendTok t ++ ' ' :: rendToks ts

/-- Well-formedness of an encoded field for the round-trip. -/
def okTok : EncTok → Bool
  | .plain s => plainTok s
  | .quoted s => dqTok s

/-- Validity of a record's field values for the codec round-trip: fields
emitted unquoted carry no shlex metacharacters and are non-empty; fields
emitted inside quotes (NAPTR flags/service/regexp) merely avoid `"` and
`\` (embedded spaces allowed); a TXT record in `values` shape has more
than one entry (the decoder folds a singleton back into `value`). -/
def validRec : Record → Bool
  | .MX vs => vs.all (fun v => plainTok v.preference && plainTok v.exchange)
  | .NAPTR vs => vs.all (fun v =>
      plainTok v.order && plainTok v.preference && dqTok v.flags &&
      dqTok v.service && dqTok v.regexp && plainTok v.replacement)
  | .SRV vs => vs.all (fun v =>
      plainTok v.priority && plainTok v.weight && plainTok v.port &&
      plainTok v.target)
  | .TXTvalues vs => decide (1 < vs.length)
  | _ => true

/-! ## Lemmas: `shlex.split` inverts the encoders' space-join -/

/-- Scanning a separator space emits the token under construction. -/
theorem shAux_space (r : List Char) (t : List Char) :
    shAux (' ' :: r) (.out (some t)) = (shAux r (.out none)).map (t :: ·) := by
  simp [shAux, isWs]

/-- Scanning a run of plain word characters accumulates them onto the
current token. -/
theorem shAux_plain (t : Str) (rest : List Char) :
    ∀ cur : Option (List Char), t.all plainChar = true → t ≠ [] →
    shAux (t ++ rest) (.out cur) = shAux rest (.out (some (cur.getD [] ++ t))) := by
  induction t with
  | nil => intro _ _ h; exact absurd rfl h
  | cons c t ih =>
    intro cur hall _
    rw [List.all_cons, Bool.and_eq_true] at hall
    obtain ⟨hc, ht⟩ := hall
    simp only [plainChar, Bool.and_eq_true, Bool.not_eq_true', decide_eq_true_eq] at hc
    obtain ⟨⟨⟨⟨hws, hq⟩, hsq⟩, hbs⟩, hhash⟩ := hc
    by_cases he : t = []
    · subst he
      simp [shAux, hws, hq, hsq, hbs, hhash]
    · rw [List.cons_append,
        show shAux (c :: (t ++ rest)) (.out cur)
            = shAux (t ++ rest) (.out (some (cur.getD [] ++ [c]))) from by
          simp [shAux, hws, hq, hsq, hbs, hhash],
        ih _ ht he]
      simp

/-- Scanning double-quoted material up to the closing quote appends it to
the accumulator and resumes word state. -/
theorem shAux_dq (s : Str) (rest : List Char) :
    ∀ acc : List Char, s.all dqChar = true →
    shAux (s ++ '"' :: rest) (.dq acc) = shAux rest (.out (some (acc ++ s))) := by
  induction s with
  | nil => intro acc _; simp [shAux]
  | cons c s ih =>
    intro acc hall
    rw [List.all_cons, Bool.and_eq_true] at hall
    obtain ⟨hc, hs⟩ := hall
    simp only [dqChar, Bool.and_eq_true, Bool.not_eq_true', decide_eq_true_eq] at hc
    obtain ⟨hq, hbs⟩ := hc
    rw [List.cons_append,
      show shAux (c :: (s ++ '"' :: rest)) (.dq acc)
          = shAux (s ++ '"' :: rest) (.dq (acc ++ [c])) from by
        simp [shAux, hq, hbs],
      ih _ hs]
    simp

/-- Scanning one rendered field appends its field string to the current
token. -/
theorem shAux_rendTok (t : EncTok) (rest : List Char)
    (cur : Option (List Char)) (h : okTok t = true) :
    shAux (rendTok t ++ rest) (.out cur)
      = shAux rest (.out (some (cur.getD [] ++ tokStr t))) := by
  cases t with
  | plain s =>
    simp only [okTok, plainTok, Bool.and_eq_true, Bool.not_eq_true'] at h
    exact shAux_plain s rest cur h.2 (by
      intro hnil; rw [hnil] at h; simp [List.isEmpty] at h)
  | quoted s =>
    simp only [okTok, dqTok] at h
    rw [show rendTok (.quoted s) ++ rest = '"' :: (s ++ '"' :: rest) from by
        simp [rendTok],
      show shAux ('"' :: (s ++ '"' :: rest)) (.out cur)
          = shAux (s ++ '"' :: rest) (.dq (cur.getD [])) from by
        simp [shAux, isWs],
      shAux_dq s rest _ h]
    rfl

/-- `shlex.split` recovers the field strings from a non-empty space-join
of well-formed rendered fields. -/
theorem shlex_split_rendToks : ∀ ts : List EncTok, ts ≠ [] →
    (∀ t ∈ ts, okTok t = true) →
    shlex_split (rendToks ts) = some (ts.map tokStr) := by
  intro ts
  induction ts with
  | nil => intro h; exact absurd rfl h
  | cons t ts ih =>
    intro _ hok
    have hokt : okTok t = true := hok t (by simp)
    cases ts with
    | nil =>
      show shAux (rendToks [t]) (.out none) = some [tokStr t]
      rw [show rendToks [t] = rendTok t ++ [] from by simp [rendToks],
        shAux_rendTok t [] none hokt]
      simp [shAux]
    | cons t' ts' =>
      show shAux (rendToks (t :: t' :: ts')) (.out none) = _
      rw [show rendToks (t :: t' :: ts') = rendTok t ++ ' ' :: rendToks (t' :: ts')
          from rfl,
        shAux_rendTok t _ none hokt]
      show shAux (' ' :: rendToks (t' :: ts')) (.out (some (tokStr t))) = _
      rw [shAux_space,
        show shAux (rendToks (t' :: ts')) (.out none)
            = shlex_split (rendToks (t' :: ts')) from rfl,
        ih (by simp) (fun x hx => hok x (by simp [hx]))]
      rfl

/-- Mapping a decoder over encoded values succeeds elementwise. -/
theorem mapM_encoded {α γ : Type} (enc : α → Str) (f : Str → Option γ)
    (g : α → γ) : ∀ vs : List α, (∀ v ∈ vs, f (enc v) = some (g v)) →
    (vs.map enc).mapM f = some (vs.map g) := by
  intro vs
  induction vs with
  | nil => intro _; rfl
  | cons v vs ih =>
    intro h
    rw [List.map_cons, List.mapM_cons, h v (by simp),
      ih (fun x hx => h x (by simp [hx]))]
    rfl

/-- `shlex.split` on two space-joined plain fields (the MX encoding). -/
theorem shlex_two_plain (a b : Str) (ha : plainTok a = true)
    (hb : plainTok b = true) :
    shlex_split (a ++ ' ' :: b) = some [a, b] := by
  have h := shlex_split_rendToks [.plain a, .plain b] (by simp) ?_
  · simpa [rendToks, rendTok, tokStr] using h
  · intro t ht
    simp only [List.mem_cons, List.not_mem_nil, or_false] at ht
    rcases ht with rfl | rfl
    · simpa [okTok] using ha
    · simpa [okTok] using hb

/-- `shlex.split` on four space-joined plain fields (the SRV encoding). -/
theorem shlex_four_plain (a b c d : Str) (ha : plainTok a = true)
    (hb : plainTok b = true) (hc : plainTok c = true)
    (hd : plainTok d = true) :
    shlex_split (a ++ ' ' :: b ++ ' ' :: c ++ ' ' :: d) = some [a, b, c, d] := by
  have h := shlex_split_rendToks [.plain a, .plain b, .plain c, .plain d]
    (by simp) ?_
  · simpa [rendToks, rendTok, tokStr, List.append_assoc] using h
  · intro t ht
    simp only [List.mem_cons, List.not_mem_nil, or_false] at ht
    rcases ht with rfl | rfl | rfl | rfl
    · simpa [okTok] using ha
    · simpa [okTok] using hb
    · simpa [okTok] using hc
    · simpa [okTok] using hd

/-- `shlex.split` on the NAPTR encoding: two plain fields, three
double-quoted fields, one plain field. -/
theorem shlex_naptr (a b c d e f : Str) (ha : plainTok a = true)
    (hb : plainTok b = true) (hc : dqTok c = true) (hd : dqTok d = true)
    (he : dqTok e = true) (hf : plainTok f = true) :
    shlex_split (a ++ ' ' :: b ++ ' ' :: '"' :: c ++ '"' :: ' ' :: '"' :: d ++
        '"' :: ' ' :: '"' :: e ++ '"' :: ' ' :: f)
      = some [a, b, c, d, e, f] := by
  have h := shlex_split_rendToks
    [.plain a, .plain b, .quoted c, .quoted d, .quoted e, .plain f]
    (by simp) ?_
  · simpa [rendToks, rendTok, tokStr, List.append_assoc] using h
  · intro t ht
    simp only [List.mem_cons, List.not_mem_nil, or_false] at ht
    rcases ht with rfl | rfl | rfl | rfl | rfl | rfl
    · simpa [okTok] using ha
    · simpa [okTok] using hb
    · simpa [okTok] using hc
    · simpa [okTok] using hd
    · simpa [okTok] using he
    · simpa [okTok] using hf

/-! ## Lemmas: per-type codec round-trips -/

/-- Decoding the MX encoding recovers the MX values. -/
theorem data_for_MX_roundtrip (vs : List MxValue)
    (h : ∀ v ∈ vs, plainTok v.preference = true ∧ plainTok v.exchange = true) :
    data_for_MX (record_set_rrdatas (.MX vs)) = some (.values (vs.map .mx)) := by
  unfold data_for_MX record_set_rrdatas
  rw [mapM_encoded _ _ Val.mx vs ?_]
  · rfl
  · intro v hv
    rw [shlex_two_plain _ _ (h v hv).1 (h v hv).2]
    rfl

/-- Decoding the SRV encoding recovers the SRV values. -/
theorem data_for_SRV_roundtrip (vs : List SrvValue)
    (h : ∀ v ∈ vs, plainTok v.priority = true ∧ plainTok v.weight = true ∧
      plainTok v.port = true ∧ plainTok v.target = true) :
    data_for_SRV (record_set_rrdatas (.SRV vs)) = some (.values (vs.map .srv)) := by
  unfold data_for_SRV record_set_rrdatas
  rw [mapM_encoded _ _ Val.srv vs ?_]
  · rfl
  · intro v hv
    obtain ⟨h1, h2, h3, h4⟩ := h v hv
    rw [shlex_four_plain _ _ _ _ h1 h2 h3 h4]
    rfl

/-- Decoding the NAPTR encoding recovers the NAPTR values. -/
theorem data_for_NAPTR_roundtrip (vs : List NaptrValue)
    (h : ∀ v ∈ vs, plainTok v.order = true ∧ plainTok v.preference = true ∧
      dqTok v.flags = true ∧ dqTok v.service = true ∧ dqTok v.regexp = true ∧
      plainTok v.replacement = true) :
    data_for_NAPTR (record_set_rrdatas (.NAPTR vs))
      = some (.values (vs.map .naptr)) := by
  unfold data_for_NAPTR record_set_rrdatas
  rw [mapM_encoded _ _ Val.naptr vs ?_]
  · rfl
  · intro v hv
    obtain ⟨h1, h2, h3, h4, h5, h6⟩ := h v hv
    rw [shlex_naptr _ _ _ _ _ _ h1 h2 h3 h4 h5 h6]
    rfl

/-- Supporting development theorem: for every supported record type other
than CAA, and every record whose field values satisfy the shape conditions
of `validRec`, decoding the encoded record set recovers exactly the
record's data. -/
theorem roundtrip_non_CAA (r : Record) (hc : rtypeOf r ≠ .CAA)
    (hv : validRec r = true) :
    data_for (rtypeOf r) (record_set_rrdatas r) = some (dataOf r) := by
  cases r with
  | A vs => rfl
  | AAAA vs => rfl
  | CAA v => exact absurd rfl hc
  | CNAME v => rfl
  | MX vs =>
    simp only [validRec, List.all_eq_true, Bool.and_eq_true] at hv
    exact data_for_MX_roundtrip vs hv
  | NAPTR vs =>
    simp only [validRec, List.all_eq_true, Bool.and_eq_true] at hv
    refine data_for_NAPTR_roundtrip vs (fun v hvv => ?_)
    have h := hv v hvv
    exact ⟨h.1.1.1.1.1, h.1.1.1.1.2, h.1.1.1.2, h.1.1.2, h.1.2, h.2⟩
  | NS vs => rfl
  | PTR v => rfl
  | SPF vs => rfl
  | SRV vs =>
    simp only [validRec, List.all_eq_true, Bool.and_eq_true] at hv
    refine data_for_SRV_roundtrip vs (fun v hvv => ?_)
    have h := hv v hvv
    exact ⟨h.1.1.1, h.1.1.2, h.1.2, h.2⟩
  | TXTvalue v => rfl
  | TXTvalues vs =>
    simp only [validRec, decide_eq_true_eq] at hv
    simp only [rtypeOf, data_for, record_set_rrdatas, data_for_TXT, if_pos hv,
      dataOf]

/-- C1: the round-trip `decode(encode(record)) == record.data` FAILS for
CAA — `_record_set_from_CAA` reads the singular `record.data['value']`
while `_data_for_CAA` returns the plural `'values'` key, so at the
concrete CAA record with data
`{'value': {'flags': '0', 'tag': 'issue', 'value': 'ca.example.net'}}`
the decode of the encode yields `{'values': [...]}`, not the record's
data. -/
theorem c1_caa_key_mismatch :
    data_for (rtypeOf (.CAA ⟨"0".data, "issue".data, "ca.example.net".data⟩))
        (record_set_rrdatas
          (.CAA ⟨"0".data, "issue".data, "ca.example.net".data⟩))
      = some (.values [.caa ⟨"0".data, "issue".data, "ca.example.net".data⟩]) ∧
    dataOf (.CAA ⟨"0".data, "issue".data, "ca.example.net".data⟩)
      = .value (.caa ⟨"0".data, "issue".data, "ca.example.net".data⟩) ∧
    data_for (rtypeOf (.CAA ⟨"0".data, "issue".data, "ca.example.net".data⟩))
        (record_set_rrdatas
          (.CAA ⟨"0".data, "issue".data, "ca.example.net".data⟩))
      ≠ some (dataOf (.CAA ⟨"0".data, "issue".data, "ca.example.net".data⟩)) :=
  ⟨by decide, rfl, by decide⟩

/-- C2 counterexample: the delay slept in the convergence poll loop DOES
exceed 29 — on the 16th poll of a run of non-terminal statuses the loop
sleeps 31 time units (29 is incremented to 31 because the guard is
`if i < 30`). -/
theorem c2_sixteenth_delay_is_31 :
    (pollSleeps 16).getLast? = some 31 ∧ ¬31 ≤ 29 := by
  exact ⟨by decide, by decide⟩

/-- C2 (amended): in the convergence poll loop the delays slept form the
sequence 1, 3, 5, ... (incremented by 2 after every poll while the current
delay is below 30) and cap at 31: the n-th delay (0-based) is
`min (2n + 1) 31`, so the sequence is 1,3,...,29,31,31,... and the delay
never exceeds 31. -/
theorem c2_delay_schedule :
    (∀ n : Nat, pollDelay n = min (2 * n + 1) 31) ∧
    (∀ n : Nat, pollSleeps n
        = (List.range n).map (fun k => min (2 * k + 1) 31)) ∧
    (∀ n : Nat, pollDelay n ≤ 31) := by
  have h : ∀ n : Nat, pollDelay n = min (2 * n + 1) 31 := by
    intro n
    induction n with
    | zero => rfl
    | succ n ih =>
      show (if pollDelay n < 30 then pollDelay n + 2 else pollDelay n) = _
      rw [ih]
      split <;> omega
  refine ⟨h, fun n => List.map_congr_left (fun k _ => h k), fun n => ?_⟩
  rw [h]; omega

/-- C3: `_get_gcloud_zone` with `create=True` does NOT create the zone
when the listing spans more than one page — the recursive call following
the continuation token drops the `create` flag, so a two-page listing with
no match returns `None` (first conjunct), although the same lookup against
a one-page listing does create and return the new zone (second
conjunct). -/
theorem c3_create_dropped_across_pages :
    get_gcloud_zone "example.com.".data
        [[⟨"za".data, "alpha.com.".data⟩], [⟨"zb".data, "beta.com.".data⟩]]
        true
      = .ok none ∧
    get_gcloud_zone "example.com.".data [[⟨"za".data, "alpha.com.".data⟩]]
        true
      = .ok (some ⟨"example-com".data, "example.com.".data⟩) :=
  ⟨by decide, by decide⟩

/-- C4: a Change whose class name is not one of Create/Delete/Update does
NOT always take the error branch — the source's membership test
`class_name in 'Create'` is a substring test, so a change whose class name
is `"reate"` silently takes the Create branch and adds an Add operation to
the batch (first conjunct), while a class name that is not a substring of
`"Create"`, such as `"Replace"`, does raise the `RuntimeError` (second
conjunct). -/
theorem c4_substring_kind_takes_create_branch :
    applyChange []
        ⟨"reate".data,
          some ⟨"example.com.".data, 300, .A ["1.2.3.4".data]⟩, none, none⟩
      = .ok [.add ⟨"example.com.".data, "A".data, 300, ["1.2.3.4".data]⟩] ∧
    applyChange []
        ⟨"Replace".data,
          some ⟨"example.com.".data, 300, .A ["1.2.3.4".data]⟩, none, none⟩
      = .error ('R' :: 'u' :: 'n' :: 't' :: 'i' :: 'm' :: 'e' :: []) :=
  ⟨by decide, by decide⟩

/-- C5: for every Update change from existing record `e` to new record
`n`, the change loop of `_apply` appends exactly one Delete operation
encoding `e` followed by exactly one Add operation encoding `n` (in that
order) to the batch, and the batch built from that single change is
exactly `[Delete(e), Add(n)]`. -/
theorem c5_update_delete_before_add :
    ∀ (ops : List Op) (e n : FullRecord) (rcd : Option FullRecord),
    applyChange ops ⟨"Update".data, rcd, some e, some n⟩
        = .ok (ops ++ [.del (record_to_record_set e),
                       .add (record_to_record_set n)]) ∧
    buildBatch [⟨"Update".data, rcd, some e, some n⟩]
        = .ok [.del (record_to_record_set e), .add (record_to_record_set n)] := by
  have h1 : occursIn "Update".data "Create".data = false := by decide
  have h2 : ("Update".data = 'D' :: 'e' :: 'l' :: 'e' :: 't' :: 'e' :: []) ↔
      False := by decide
  intro ops e n rcd
  constructor
  · simp [applyChange, h1, h2]
  · show (applyChange [] ⟨"Update".data, rcd, some e, some n⟩).bind _ = _
    simp only [applyChange, h1, h2]
    simp
    rfl

/-- C6: TXT codec cardinality — a TXT record set with more than one
rrdata entry decodes to the plural `values` shape listing every entry and
re-encoding that shape reproduces the rrdata list exactly (first
conjunct); a TXT record set with exactly one entry decodes to the
singular `value` shape and re-encoding the single value wrapped in a
one-element list reproduces the rrdata list exactly (second conjunct). -/
theorem c6_txt_cardinality :
    (∀ rs : List Str, 1 < rs.length →
      data_for_TXT rs = some (dataOf (.TXTvalues rs)) ∧
      record_set_rrdatas (.TXTvalues rs) = rs) ∧
    (∀ v : Str,
      data_for_TXT [v] = some (dataOf (.TXTvalue v)) ∧
      record_set_rrdatas (.TXTvalue v) = [v]) := by
  constructor
  · intro rs h
    exact ⟨by simp only [data_for_TXT, if_pos h, dataOf], rfl⟩
  · intro v
    exact ⟨rfl, rfl⟩

/-- C6 witness: the two-entry TXT record set
`["v=spf1 -all", "hello world"]` decodes to the `values` shape and
re-encodes to itself. -/
theorem c6_txt_cardinality_witness :
    data_for_TXT ["v=spf1 -all".data, "hello world".data]
        = some (dataOf (.TXTvalues ["v=spf1 -all".data, "hello world".data])) ∧
    record_set_rrdatas (.TXTvalues ["v=spf1 -all".data, "hello world".data])
        = ["v=spf1 -all".data, "hello world".data] :=
  c6_txt_cardinality.1 ["v=spf1 -all".data, "hello world".data] (by decide)

/-- C7: during populate of zone `z`, a remote record named exactly `z`
(the apex) is given the empty relative name, and a remote record named
`p + "." + z` is given the relative name `p` — the trailing `"." + z`
suffix is stripped. -/
theorem c7_relative_names :
    ∀ z : Str, relName z z = [] ∧ ∀ p : Str, relName (p ++ '.' :: z) z = p := by
  intro z
  constructor
  · have hend : pyEndsWith z z = true := by
      simp [pyEndsWith]
    rw [relName, if_pos hend, Nat.sub_eq_zero_of_le (by omega), List.take_zero]
  · intro p
    have hlen : (p ++ '.' :: z).length = p.length + 1 + z.length := by
      simp [List.length_append]
      omega
    have hsplit : p ++ '.' :: z = (p ++ ['.']) ++ z := by simp
    have hend : pyEndsWith (p ++ '.' :: z) z = true := by
      rw [pyEndsWith, decide_eq_true_eq]
      constructor
      · omega
      · have hd : (p ++ ['.'] ++ z).length - z.length = (p ++ ['.']).length := by
          simp [List.length_append]
          omega
        rw [hsplit, hd, List.drop_left]
    rw [relName, if_pos hend, hlen,
      show p.length + 1 + z.length - (z.length + 1) = p.length from by omega,
      show (p ++ '.' :: z).take p.length = p from by
        rw [show p ++ '.' :: z = p ++ ('.' :: z) from rfl]
        simp [List.take_left]]

/-- C8 counterexample: the synthesized zone identifier does NOT always
exist — for the fqdn `"."` (and any fqdn whose characters are all removed
by the `[^a-z0-9-]` filter) the source indexes `zone_name[0]` on an empty
string and raises `IndexError`, so no identifier is returned. -/
theorem c8_empty_fqdn_crashes :
    createZoneName ['.'] = none ∧
    create_gcloud_zone ['.'] = .error ('I' :: 'n' :: 'd' :: 'e' :: 'x' :: []) :=
  ⟨rfl, rfl⟩

/-- C8 (amended): for every fqdn whose filtered form (trailing dot
stripped, `.` replaced by `-`, characters outside `[a-z0-9-]` removed) is
non-empty, the synthesized zone identifier exists, equals that filtered
form with a letter prepended exactly when it does not already start with
a letter, and always starts with a lowercase letter; when the filtered
form is empty the code instead fails with an `IndexError`. -/
theorem c8_zone_name_synthesis (dns_name : Str)
    (h : filteredZoneName dns_name ≠ []) :
    (∃ c cs, createZoneName dns_name = some (c :: cs) ∧ 'a' ≤ c ∧ c ≤ 'z') ∧
    createZoneName dns_name = some (
      if 'a' ≤ (filteredZoneName dns_name).headD 'a' ∧
          (filteredZoneName dns_name).headD 'a' ≤ 'z'
      then filteredZoneName dns_name
      else 'a' :: filteredZoneName dns_name) := by
  rcases hm : filteredZoneName dns_name with _ | ⟨c0, cs0⟩
  · exact absurd hm h
  · have hcz : createZoneName dns_name
        = some (if ¬('a' ≤ c0 ∧ c0 ≤ 'z') then 'a' :: c0 :: cs0
                else c0 :: cs0) := by
      rw [createZoneName, hm]
    rw [hcz]
    by_cases hc : 'a' ≤ c0 ∧ c0 ≤ 'z'
    · exact ⟨⟨c0, cs0, by simp [hc], hc.1, hc.2⟩, by simp [hc]⟩
    · exact ⟨⟨'a', c0 :: cs0, by simp [hc], le_refl _, by decide⟩, by simp [hc]⟩

/-- C8 witness: the fqdn `example.com.` filters to the non-empty,
letter-initial `example-com`, so the synthesis succeeds with exactly that
identifier, unprepended. -/
theorem c8_zone_name_synthesis_witness :
    (∃ c cs, createZoneName "example.com.".data = some (c :: cs) ∧
      'a' ≤ c ∧ c ≤ 'z') ∧
    createZoneName "example.com.".data = some (
      if 'a' ≤ (filteredZoneName "example.com.".data).headD 'a' ∧
          (filteredZoneName "example.com.".data).headD 'a' ≤ 'z'
      then filteredZoneName "example.com.".data
      else 'a' :: filteredZoneName "example.com.".data) :=
  c8_zone_name_synthesis "example.com.".data (by decide)

/-- Supporting lemma: when no page of the remote listing holds a zone
with the requested `dns_name`, the locator (called without `create`, as
`populate` calls it) reports the zone as absent. -/
theorem get_gcloud_zone_not_found (dns : Str) :
    ∀ pages : List (List GZone),
    (∀ p ∈ pages, ∀ z ∈ p, z.dns_name ≠ dns) →
    get_gcloud_zone dns pages false = .ok none := by
  intro pages
  induction pages with
  | nil => intro _; rfl
  | cons p pages ih =>
    intro h
    have hfind : p.find? (fun z => z.dns_name = dns) = none := by
      rw [List.find?_eq_none]
      intro z hz
      simpa using h p (by simp) z hz
    cases pages with
    | nil =>
      rw [get_gcloud_zone]
      simp only [List.headD_cons, hfind]
      intro a b c hab
      simp at hab
    | cons p2 rest =>
      rw [get_gcloud_zone]
      simp only [List.headD_cons, hfind]
      exact ih (fun q hq => h q (by simp [hq]))

/-- C9: populating a zone whose dns name matches no zone of the remote
listing returns without error and leaves the zone object exactly as it
was — no records added, no remote zone created. -/
theorem c9_populate_absent_zone (pages : List (List GZone))
    (recsOf : GZone → List ResourceRecordSet) (zone : OctoZone)
    (h : ∀ p ∈ pages, ∀ z ∈ p, z.dns_name ≠ zone.name) :
    populate pages recsOf zone = .ok zone := by
  rw [populate, get_gcloud_zone_not_found zone.name pages h]

/-- C9 witness: populating `example.com.` against a listing holding only
`alpha.com.` leaves the zone untouched. -/
theorem c9_populate_absent_zone_witness :
    populate [[⟨"za".data, "alpha.com.".data⟩]] (fun _ => [])
        ⟨"example.com.".data, []⟩
      = .ok ⟨"example.com.".data, []⟩ :=
  c9_populate_absent_zone [[⟨"za".data, "alpha.com.".data⟩]] (fun _ => [])
    ⟨"example.com.".data, []⟩ (by decide)

/-- C10: the decoders for CNAME, PTR and TXT (single-entry case) index
`rrdatas[0]`, so they succeed on every non-empty rrdata list (first
conjunct) but fail on an empty one (next three conjuncts: CNAME, its PTR
alias, TXT); consequently `populate` of a zone whose remote listing holds
a CNAME record set with an empty rrdata list fails with an `IndexError`
instead of producing a record (last conjunct). -/
theorem c10_decoders_need_nonempty_rrdatas :
    (∀ rs : List Str, rs ≠ [] →
      (data_for_CNAME rs).isSome ∧ (data_for_TXT rs).isSome) ∧
    data_for_CNAME [] = none ∧
    data_for .PTR [] = none ∧
    data_for_TXT [] = none ∧
    populate [[⟨"za".data, "example.com.".data⟩]]
        (fun _ => [⟨"example.com.".data, "CNAME".data, 300, []⟩])
        ⟨"example.com.".data, []⟩
      = .error ('I' :: 'n' :: 'd' :: 'e' :: 'x' :: []) := by
  refine ⟨?_, rfl, rfl, rfl, by decide⟩
  intro rs hne
  rcases rs with _ | ⟨v, t⟩
  · exact absurd rfl hne
  · constructor
    · rfl
    · rcases t with _ | ⟨w, t2⟩
      · rfl
      · have h2 : 1 < (v :: w :: t2).length := by
          simp only [List.length_cons]
          omega
        simp [data_for_TXT, h2]

/-- C10 witness: both decoders succeed on the one-entry rrdata list
`["x"]`. -/
theorem c10_decoders_need_nonempty_rrdatas_witness :
    (data_for_CNAME ["x".data]).isSome ∧ (data_for_TXT ["x".data]).isSome :=
  c10_decoders_need_nonempty_rrdatas.1 ["x".data] (by decide)

end GCloudDNS
